import Mathlib

/-!
Verification of gr-fosphor (files `lib/base_sink_c_impl.cc`, `lib/fosphor/gl.c`,
`lib/fosphor/private.h`) against its natural-language specification.

The sink state, the UI-action interpreter, the settings register, the layout
recompute, the render-loop FIFO drain and the compositor draw logic are embedded
shallowly below.  Machine integers are modelled as `Nat`/`Int`.  The two places
where IEEE-754 binary32 arithmetic is observable (the `0.65f` pane-width factor
and the `0.05f` pane-ratio step) are modelled exactly: every value involved is a
dyadic rational with at most 28 fractional bits, so it is represented by its
numerator over `2^28` (or `2^24`), and a float32 operation is the exact integer
sum/product followed by rounding to a 24-bit significand with round-to-nearest,
ties-to-even.  At the magnitudes that occur no underflow/overflow is possible,
so this is exactly IEEE binary32.
-/

namespace Fosphor

/-- Binary digit count, computed with explicit fuel so that the definition
reduces by kernel computation (`Nat.log2` uses well-founded recursion and does
not); the fuel bounds the number of digits. -/
def nbits_fuel : ℕ → ℕ → ℕ
  | 0, _ => 0
  | _ + 1, 0 => 0
  | fuel + 1, n + 1 => nbits_fuel fuel ((n + 1) / 2) + 1

/-- Number of binary digits of `n`; 64 digits cover every value arising here. -/
def nbits (n : ℕ) : ℕ := nbits_fuel 64 n

/-- Round-to-nearest with ties-to-even on a quotient `q` with remainder `r`
against the halfway value `h`. -/
def round_half_even (q r h : ℕ) : ℕ :=
  if h < r then q + 1 else if r < h then q else if q % 2 = 0 then q else q + 1

/-- Rounds a positive integer to 24 significant bits, round-to-nearest with
ties-to-even.  If the integer is the numerator of a dyadic value `n / 2^k`
(with the value in the normal binary32 range), this is exactly IEEE binary32
rounding of that value, independently of the scaling `k`. -/
def round24 (n : ℕ) : ℕ :=
  if n < 2 ^ 24 then n
  else
    round_half_even (n / 2 ^ (nbits n - 24)) (n % 2 ^ (nbits n - 24))
        (2 ^ (nbits n - 25)) *
      2 ^ (nbits n - 24)

/-- The float32 nearest 0.05, scaled by `2^28`: `0.05f = 13421773 / 2^28`.
Step used by RATIO_UP / RATIO_DOWN (`base_sink_c_impl.cc` lines 365, 370). -/
def c_step_28 : ℕ := 13421773

/-- The float32 nearest 0.8, scaled by `2^28`: `0.8f = 13421773 / 2^24`.
Upper guard of RATIO_UP (`base_sink_c_impl.cc` line 364). -/
def c_hi_28 : ℕ := 214748368

/-- The float32 nearest 0.2, scaled by `2^28`: `0.2f = 13421773 / 2^26`.
Lower guard of RATIO_DOWN (`base_sink_c_impl.cc` line 369). -/
def c_lo_28 : ℕ := 53687092

/-- The float32 nearest 0.35, scaled by `2^28`: `0.35f = 11744051 / 2^25`.
Initial value of `d_ratio` (`base_sink_c_impl.cc` line 54). -/
def c_init_28 : ℕ := 93952408

/-- `RATIO_UP`: `if (d_ratio < 0.8f) d_ratio += 0.05f;` on the scaled-by-`2^28`
float32 ratio.  The sum of two such dyadics is exact on the `2^28` grid, and the
float32 store rounds it to a 24-bit significand. -/
def ratio_up (r : ℕ) : ℕ :=
  if r < c_hi_28 then round24 (r + c_step_28) else r

/-- `RATIO_DOWN`: `if (d_ratio > 0.2f) d_ratio -= 0.05f;` on the scaled ratio. -/
def ratio_down (r : ℕ) : ℕ :=
  if c_lo_28 < r then round24 (r - c_step_28) else r

/-- The `k_db_per_div` table (`base_sink_c_impl.cc` line 48). -/
def k_db_per_div : List ℤ := [1, 2, 5, 10, 20]

/-- Settings category bits.  The numeric values live in `base_sink_c_impl.h`,
which is not part of the sources; modelled from the spec (section 3,
PendingSettings lists six categories) as six distinct one-bit masks. -/
def SETTING_DIMENSIONS : ℕ := 1

/-- Settings category bit for the power range. -/
def SETTING_POWER_RANGE : ℕ := 2

/-- Settings category bit for the frequency range. -/
def SETTING_FREQUENCY_RANGE : ℕ := 4

/-- Settings category bit for the FFT window. -/
def SETTING_FFT_WINDOW : ℕ := 8

/-- Settings category bit for the FFT size. -/
def SETTING_FFT_SIZE : ℕ := 16

/-- Settings category bit for the render options. -/
def SETTING_RENDER_OPTIONS : ℕ := 32

/-- The mutable sink state: the UiState fields of `base_sink_c_impl`
(`base_sink_c_impl.cc` lines 51-55) together with the pending-settings
dirty-bit set.  `d_zoom_center` / `d_zoom_width` are C doubles on which only
exact operations occur in the embedded code paths, so they are plain rationals;
`ratio28` is the float32 `d_ratio` scaled by `2^28`. -/
structure SinkState where
  d_db_ref : ℤ
  d_db_per_div_idx : ℕ
  d_zoom_enabled : Bool
  d_zoom_center : ℚ
  d_zoom_width : ℚ
  ratio28 : ℕ
  d_frozen : Bool
  d_fft_size : ℤ
  d_settings_changed : ℕ
  deriving DecidableEq, Repr

/-- Constructor state (`base_sink_c_impl.cc` lines 51-55); the dirty set starts
empty (modelled from the spec: PendingSettings is "ephemeral per frame"). -/
def init_state : SinkState :=
  { d_db_ref := 0
    d_db_per_div_idx := 3
    d_zoom_enabled := false
    d_zoom_center := 1/2
    d_zoom_width := 1/5
    ratio28 := c_init_28
    d_frozen := false
    d_fft_size := 1024
    d_settings_changed := 0 }

/-- `settings_mark_changed` (`base_sink_c_impl.cc` lines 204-209): OR the
category bits into the dirty set. -/
def settings_mark_changed (s : SinkState) (setting : ℕ) : SinkState :=
  { s with d_settings_changed := s.d_settings_changed ||| setting }

/-- `settings_get_and_reset_changed` (`base_sink_c_impl.cc` lines 211-218):
atomically return the dirty set and clear it. -/
def settings_get_and_reset_changed (s : SinkState) : ℕ × SinkState :=
  (s.d_settings_changed, { s with d_settings_changed := 0 })

/-- The `ui_action_t` enumeration. -/
inductive UiAction where
  | db_per_div_up
  | db_per_div_down
  | ref_up
  | ref_down
  | zoom_toggle
  | zoom_width_up
  | zoom_width_down
  | zoom_center_up
  | zoom_center_down
  | pane_split_up
  | pane_split_down
  | freeze_toggle
  deriving DecidableEq, Repr

/-- The switch body of `execute_ui_action` (`base_sink_c_impl.cc` lines
320-376).  `pane_split_up` / `pane_split_down` are the RATIO_UP / RATIO_DOWN
cases acting on the float32 pane ratio. -/
def ui_action_step (s : SinkState) (a : UiAction) : SinkState :=
  match a with
  | .db_per_div_up =>
      if s.d_db_per_div_idx < 4 then { s with d_db_per_div_idx := s.d_db_per_div_idx + 1 } else s
  | .db_per_div_down =>
      if 0 < s.d_db_per_div_idx then { s with d_db_per_div_idx := s.d_db_per_div_idx - 1 } else s
  | .ref_up =>
      { s with d_db_ref := s.d_db_ref + k_db_per_div.getD s.d_db_per_div_idx 0 }
  | .ref_down =>
      { s with d_db_ref := s.d_db_ref - k_db_per_div.getD s.d_db_per_div_idx 0 }
  | .zoom_toggle =>
      { s with d_zoom_enabled := !s.d_zoom_enabled }
  | .zoom_width_up =>
      if s.d_zoom_enabled then { s with d_zoom_width := s.d_zoom_width * 2 } else s
  | .zoom_width_down =>
      if s.d_zoom_enabled then { s with d_zoom_width := s.d_zoom_width / 2 } else s
  | .zoom_center_up =>
      if s.d_zoom_enabled then { s with d_zoom_center := s.d_zoom_center + s.d_zoom_width / 8 } else s
  | .zoom_center_down =>
      if s.d_zoom_enabled then { s with d_zoom_center := s.d_zoom_center - s.d_zoom_width / 8 } else s
  | .pane_split_up =>
      { s with ratio28 := ratio_up s.ratio28 }
  | .pane_split_down =>
      { s with ratio28 := ratio_down s.ratio28 }
  | .freeze_toggle =>
      { s with d_frozen := !s.d_frozen }

/-- `execute_ui_action` (`base_sink_c_impl.cc` lines 318-382): the switch body,
then an unconditional `settings_mark_changed(SETTING_POWER_RANGE |
SETTING_RENDER_OPTIONS)` (lines 378-381). -/
def execute_ui_action (s : SinkState) (a : UiAction) : SinkState :=
  settings_mark_changed (ui_action_step s a) (SETTING_POWER_RANGE ||| SETTING_RENDER_OPTIONS)

/-- `set_fft_size` (`base_sink_c_impl.cc` lines 439-450): no-op when the size
is already active, otherwise store and mark dirty only for a supported size. -/
def set_fft_size (s : SinkState) (size : ℤ) : SinkState :=
  if size = s.d_fft_size then s
  else if size = 512 ∨ size = 1024 ∨ size = 2048 ∨ size = 4096 ∨ size = 8192 ∨
          size = 16384 ∨ size = 32768 then
    settings_mark_changed { s with d_fft_size := size } SETTING_FFT_SIZE
  else s

/-! ### Layout engine (`settings_apply`, `base_sink_c_impl.cc` lines 265-297) -/

/-- The float32 nearest 0.65, as the numerator over `2^24`:
`0.65f = 10905190 / 2^24`. -/
def c065_24 : ℕ := 10905190

/-- Zoomed main-pane width: `int a = (int)(d_width * 0.65f);`
(`base_sink_c_impl.cc` line 270).  The int width converts exactly to float32
(widths are far below `2^24`), the float32 product of `w` and `0.65f` is the
exact integer product `w * 10905190` over `2^24` rounded to a 24-bit
significand, and the int cast truncates (floors, the value being
nonnegative). -/
def zoom_main_width (w : ℕ) : ℕ :=
  round24 (w * c065_24) / 2 ^ 24

/-- Main-pane width assigned by the layout recompute
(`base_sink_c_impl.cc` lines 269-280). -/
def main_pane_width (zoom_enabled : Bool) (w : ℕ) : ℕ :=
  if zoom_enabled then zoom_main_width w else w

/-- Zoom-pane width: `d_render_zoom->width = d_width - a + 10;`
(`base_sink_c_impl.cc` line 275), meaningful only when zoom is enabled. -/
def zoom_pane_width (w : ℕ) : ℕ :=
  w - zoom_main_width w + 10

/-- Zoom-pane x position: `d_render_zoom->pos_x = a - 10;`
(`base_sink_c_impl.cc` line 274). -/
def zoom_pane_pos_x (w : ℕ) : ℕ :=
  zoom_main_width w - 10

/-! ### Compositor (`fosphor_gl_draw`, `gl.c`) -/

/-- The render-option flags of a `fosphor_render`.  The numeric `FRO_*` bit
values live in `fosphor.h`, which is not part of the sources; modelled from the
spec (section 3, RenderDescriptor flag list) as one boolean per flag. -/
structure RenderOptions where
  waterfall : Bool
  histo : Bool
  live : Bool
  max_hold : Bool
  label_pwr : Bool
  label_time : Bool
  label_freq : Bool
  color_scale : Bool
  channels : Bool
  deriving DecidableEq, Repr

/-- A horizontal power gridline: its y position and, when power labels are
enabled, the printed label value. -/
structure GridLine where
  y : ℚ
  label : Option ℤ
  deriving DecidableEq, Repr

/-- The horizontal power-gridline loop of `fosphor_gl_draw`
(`gl.c` lines 578-610): under the `FRO_LIVE | FRO_MAX_HOLD | FRO_HISTO` guard,
`for (i=0; i<11; i++)` draws a line at `_y_histo[0] + i * _y_histo_div` and,
when `FRO_LABEL_PWR` is set, prints `power.db_ref - (10-i) * power.db_per_div`
next to it. -/
def power_grid_lines (opts : RenderOptions) (y0 ydiv : ℚ) (db_ref db_per_div : ℤ) :
    List GridLine :=
  if opts.live || opts.max_hold || opts.histo then
    (List.range 11).map fun (i : ℕ) =>
      { y := y0 + (i : ℚ) * ydiv
        label := if opts.label_pwr then some (db_ref - (10 - (i : ℤ)) * db_per_div) else none }
  else []

/-- Spectrum end-point selection of `fosphor_gl_draw` (`gl.c` lines 474-483):
`idx[0] = ceil(fft_len * (freq_center - freq_span/2))`,
`idx[1] = floor(fft_len * (freq_center + freq_span/2))`, then
`idx[0]` is raised to 1 and `idx[1]` lowered to `fft_len - 1`.
The float expressions are modelled in exact rational arithmetic. -/
def spectrum_idx (fft_len : ℕ) (freq_center freq_span : ℚ) : ℤ × ℤ :=
  let i0 := ⌈(fft_len : ℚ) * (freq_center - freq_span / 2)⌉
  let i1 := ⌊(fft_len : ℚ) * (freq_center + freq_span / 2)⌋
  let i0' := if i0 < 1 then 1 else i0
  let i1' := if (fft_len : ℤ) ≤ i1 then (fft_len : ℤ) - 1 else i1
  (i0', i1')

/-- The spectrum trace drawing is guarded by `FRO_LIVE | FRO_MAX_HOLD`
(`gl.c` line 472); when disabled no bin range is drawn. -/
def draw_spectrum_range (opts : RenderOptions) (fft_len : ℕ) (freq_center freq_span : ℚ) :
    Option (ℤ × ℤ) :=
  if opts.live || opts.max_hold then some (spectrum_idx fft_len freq_center freq_span)
  else none

/-! ### Channel overlays (`fosphor_gl_draw`, `gl.c` lines 658-760) -/

/-- One channel descriptor of a `fosphor_render` (fields as used by `gl.c` and
`base_sink_c_impl.cc`: enabled flag, normalized center and width). -/
structure FChannel where
  enabled : Bool
  center : ℚ
  width : ℚ
  deriving DecidableEq, Repr

/-- A boundary point of the channel sweep: `dir` is the coverage delta
(+1 channel start, -1 channel end), `pos` the normalized position. -/
structure CPoint where
  dir : ℤ
  pos : ℚ
  deriving DecidableEq, Repr

/-- The clamp applied to each channel edge (`gl.c` lines 684, 691):
`(f > 0.0f) ? (f < 1.0f ? f : 1.0f) : 0.0f`. -/
def clamp01 (f : ℚ) : ℚ :=
  if 0 < f then (if f < 1 then f else 1) else 0

/-- The boundary points generated from the enabled channels
(`gl.c` lines 674-693): a start point (dir +1) at the clamped left edge
`center - width/2` and an end point (dir -1) at the clamped right edge
`center + width/2`. -/
def channel_points (cs : List FChannel) : List CPoint :=
  ((cs.filter fun c => c.enabled).map fun c =>
    [ CPoint.mk 1 (clamp01 (c.center - c.width / 2)),
      CPoint.mk (-1) (clamp01 (c.center + c.width / 2)) ]).flatten

/-- All sweep points (`gl.c` lines 669-672): the artificial pair
`pt[0] = (-1, 0.0)`, `pt[1] = (+1, 1.0)` followed by the channel points. -/
def all_points (cs : List FChannel) : List CPoint :=
  CPoint.mk (-1) 0 :: CPoint.mk 1 1 :: channel_points cs

/-- Insert a point into a position-sorted list. -/
def insert_pt (p : CPoint) : List CPoint → List CPoint
  | [] => [p]
  | q :: qs => if p.pos ≤ q.pos then p :: q :: qs else q :: insert_pt p qs

/-- Sort points by position.  The C code selection-sorts `pt[1..n-1]` in place
(`gl.c` lines 710-723); for the distinct positions arising in the claims any
comparison sort produces the same list, so an insertion sort is used here. -/
def sort_pts : List CPoint → List CPoint
  | [] => []
  | p :: ps => insert_pt p (sort_pts ps)

/-- One sub-interval of the sweep with the running coverage counter `l` the C
code holds while crossing it (`gl.c` lines 698, 726-752).  Because of the
artificial `(-1, 0.0)` start point, a region overlapped by `d` channels has
`cov = d - 1`. -/
structure CSeg where
  lo : ℚ
  hi : ℚ
  cov : ℤ
  deriving DecidableEq, Repr

/-- Left-to-right sweep: each consecutive pair of sorted points bounds a
sub-interval carrying the accumulated coverage counter, which is then advanced
by the right point's direction (`l += pt[i].dir`, `gl.c` line 752). -/
def sweep_segs : ℚ → ℤ → List CPoint → List CSeg
  | _, _, [] => []
  | prev, l, p :: ps => CSeg.mk prev p.pos l :: sweep_segs p.pos (l + p.dir) ps

/-- The full coverage partition of `[0,1]` produced by the sweep: the counter
starts at `pt[0].dir = -1` (`gl.c` line 698) and the remaining points are
processed in position order. -/
def channel_partition (cs : List FChannel) : List CSeg :=
  sweep_segs 0 (-1) (sort_pts (CPoint.mk 1 1 :: channel_points cs))

/-- Whether a sub-interval is actually shaded
(`gl.c` line 726): nonzero width and counter `l` different from 0. -/
def seg_drawn (s : CSeg) : Prop :=
  s.lo ≠ s.hi ∧ s.cov ≠ 0

/-- The shading opacity (alpha) chosen for a sub-interval with counter `l`
(`gl.c` lines 728-731): black with alpha 0.5 when `l < 0` (outside every
channel), white with alpha `0.2 - 0.2 / (1 + l)` otherwise.  Exact rational
arithmetic stands in for the float expression; at counter 0 the formula gives
alpha 0, matching the code's skip of `l == 0` sub-intervals. -/
def seg_alpha (l : ℤ) : ℚ :=
  if l < 0 then 1/2 else 1/5 - (1/5) / ((1 + l : ℤ) : ℚ)

/-! ### Render-loop FIFO drain (`render`, `base_sink_c_impl.cc` lines 130-175) -/

/-- Read-side state of the sample FIFO.  Modelled from the spec (section 4.1):
`fifo.cc` is not part of the sources.  A fixed-capacity ring with a read cursor;
`used + free == capacity` and the write cursor never laps the read cursor, so
the read side is characterized by the capacity, the read position and the
number of unread elements. -/
structure Fifo where
  cap : ℕ
  rpos : ℕ
  used : ℕ
  deriving DecidableEq, Repr

/-- Modelled from the spec: `read_max_size` is the largest contiguous unread
run, bounded by the wrap point. -/
def read_max_size (f : Fifo) : ℕ :=
  min f.used (f.cap - f.rpos)

/-- Modelled from the spec: `read_discard(n)` advances the read cursor by `n`
(wrapping) and releases `n` used elements. -/
def read_discard (f : Fifo) (n : ℕ) : Fifo :=
  { f with rpos := (f.rpos + n) % f.cap, used := f.used - n }

/-- `batch_mult` (`base_sink_c_impl.cc` line 134). -/
def batch_mult : ℕ := 16

/-- `batch_max` (`base_sink_c_impl.cc` line 135). -/
def batch_max : ℕ := 1024

/-- `max_iter` (`base_sink_c_impl.cc` line 136). -/
def max_iter : ℕ := 8

/-- The FIFO-drain loop of `render` (`base_sink_c_impl.cc` lines 144-175),
parameterized by the FFT length and the frozen flag; returns the FIFO after the
iteration together with the list of lengths handed to `fosphor_process`.
Per sub-batch: clamp to the contiguous run, align down to a multiple of
`batch_mult * fft_len` (the C `len &= ~((batch_mult*fft_len)-1)` equals
`len - len % (batch_mult*fft_len)` because the modulus is a power of two),
cap at `batch_max * fft_len`, stop on an empty batch, process unless frozen,
and discard regardless. -/
def render_batches (fft_len : ℕ) (frozen : Bool) : ℕ → ℕ → Fifo → Fifo × List ℕ
  | 0, _, f => (f, [])
  | fuel + 1, tot_len, f =>
    if tot_len = 0 then (f, [])
    else
      let len1 := min tot_len (read_max_size f)
      let len2 := len1 - len1 % (batch_mult * fft_len)
      let len := min len2 (batch_max * fft_len)
      if len = 0 then (f, [])
      else
        let next := render_batches fft_len frozen fuel (tot_len - len) (read_discard f len)
        (next.1, (if frozen then [] else [len]) ++ next.2)

/-- One render-iteration FIFO drain: `tot_len = d_fifo->used()` then at most
`max_iter` sub-batches (`base_sink_c_impl.cc` lines 144-146). -/
def render_drain (fft_len : ℕ) (frozen : Bool) (f : Fifo) : Fifo × List ℕ :=
  render_batches fft_len frozen max_iter f.used f

/-! ### Certificates and concrete instances used by the claims -/

/-- The set of scaled float32 ratio values reachable from the initial 0.35f by
RATIO_UP / RATIO_DOWN steps (a closure certificate, checked below). -/
def ratio_reach : List ℕ :=
  [53687080, 53687088, 67108852, 67108860, 80530624, 80530632, 93952400,
   93952408, 107374176, 107374184, 120795952, 120795960, 134217728, 147639504,
   161061280, 174483056, 187904832, 201326608, 214748384]

/-- The two channels of the spec's worked example: intervals `[0.1, 0.3]`
(center 0.2, width 0.2) and `[0.2, 0.4]` (center 0.3, width 0.2). -/
def ex_channels : List FChannel :=
  [{ enabled := true, center := 1/5, width := 1/5 },
   { enabled := true, center := 3/10, width := 1/5 }]

/-- The coverage partition the sweep produces for `ex_channels`:
coverage counters -1, 0, 1, 0, -1, i.e. channel-overlap depths 0, 1, 2, 1, 0 on
`[0, 0.1)`, `[0.1, 0.2)`, `[0.2, 0.3)`, `[0.3, 0.4)`, `[0.4, 1]`. -/
def ex_partition : List CSeg :=
  [{ lo := 0,    hi := 1/10, cov := -1 },
   { lo := 1/10, hi := 1/5,  cov := 0 },
   { lo := 1/5,  hi := 3/10, cov := 1 },
   { lo := 3/10, hi := 2/5,  cov := 0 },
   { lo := 2/5,  hi := 1,    cov := -1 }]

/-- Render options with only the live trace and power labels enabled, used as a
concrete pane configuration. -/
def opts_live : RenderOptions :=
  { waterfall := false, histo := false, live := true, max_hold := false,
    label_pwr := true, label_time := false, label_freq := false,
    color_scale := false, channels := false }

/-- The scaled float32 pane ratio after an action sequence from the initial
state. -/
def ratio_after (as : List UiAction) : ℕ :=
  (as.foldl execute_ui_action init_state).ratio28

/-! ## Helper lemmas -/

/-- `nbits_fuel` is a correct digit count when the fuel suffices. -/
theorem nbits_fuel_correct :
    ∀ fuel n, 0 < n → n < 2 ^ fuel →
      2 ^ (nbits_fuel fuel n - 1) ≤ n ∧ n < 2 ^ nbits_fuel fuel n := by
  intro fuel
  induction fuel with
  | zero => intro n h1 h2; omega
  | succ fuel ih =>
    intro n h1 h2
    match n, h1 with
    | 1, _ =>
      have h0 : nbits_fuel (fuel + 1) 1 = 1 := by
        cases fuel <;> rfl
      rw [h0]; omega
    | m + 2, _ =>
      have hrec : nbits_fuel (fuel + 1) (m + 2) = nbits_fuel fuel ((m + 2) / 2) + 1 := rfl
      have hpos : 0 < (m + 2) / 2 := by omega
      have hlt : (m + 2) / 2 < 2 ^ fuel := by
        have := Nat.pow_lt_pow_succ (a := 2) (n := fuel) (by omega)
        omega
      obtain ⟨hlo, hhi⟩ := ih ((m + 2) / 2) hpos hlt
      rw [hrec]
      have hb : 1 ≤ nbits_fuel fuel ((m + 2) / 2) := by
        by_contra hc
        have : nbits_fuel fuel ((m + 2) / 2) = 0 := by omega
        rw [this] at hhi
        omega
      constructor
      · have : 2 ^ (nbits_fuel fuel ((m + 2) / 2) + 1 - 1) =
            2 * 2 ^ (nbits_fuel fuel ((m + 2) / 2) - 1) := by
          rw [← pow_succ']; congr 1; omega
        rw [this]; omega
      · have : 2 ^ (nbits_fuel fuel ((m + 2) / 2) + 1) =
            2 * 2 ^ nbits_fuel fuel ((m + 2) / 2) := by
          rw [← pow_succ']
        rw [this]; omega

/-- For positive `n` below the fuel bound, `2^(nbits n - 1) ≤ n < 2^(nbits n)`. -/
theorem nbits_correct (n : ℕ) (h1 : 0 < n) (h2 : n < 2 ^ 64) :
    2 ^ (nbits n - 1) ≤ n ∧ n < 2 ^ nbits n :=
  nbits_fuel_correct 64 n h1 h2

/-- Nearest-with-ties-even rounding of `Q*S + R` to a multiple of `S = 2*H`
moves the value up by at most `H ≤ D`. -/
theorem rhe_le (Q R S H D n : ℕ) (hS : S = 2 * H) (hdm : Q * S + R = n)
    (hR : R < S) (hHD : H ≤ D) : round_half_even Q R H * S ≤ n + D := by
  have hexp : (Q + 1) * S = Q * S + S := by ring
  unfold round_half_even
  split
  · rw [hexp]
    generalize hg : Q * S = P at hdm ⊢
    omega
  · split
    · generalize hg : Q * S = P at hdm ⊢
      omega
    · split
      · generalize hg : Q * S = P at hdm ⊢
        omega
      · rw [hexp]
        generalize hg : Q * S = P at hdm ⊢
        omega

/-- Nearest-with-ties-even rounding of `Q*S + R` to a multiple of `S = 2*H`
moves the value down by at most `H ≤ D`. -/
theorem rhe_ge (Q R S H D n : ℕ) (hS : S = 2 * H) (hdm : Q * S + R = n)
    (hR : R < S) (hHD : H ≤ D) : n ≤ round_half_even Q R H * S + D := by
  have hexp : (Q + 1) * S = Q * S + S := by ring
  unfold round_half_even
  split
  · rw [hexp]
    generalize hg : Q * S = P at hdm ⊢
    omega
  · split
    · generalize hg : Q * S = P at hdm ⊢
      omega
    · split
      · generalize hg : Q * S = P at hdm ⊢
        omega
      · rw [hexp]
        generalize hg : Q * S = P at hdm ⊢
        omega

/-- `round24` never rounds up by more than half a unit in the last place:
`round24 n ≤ n + n / 2^24`. -/
theorem round24_le (n : ℕ) (h64 : n < 2 ^ 64) : round24 n ≤ n + n / 2 ^ 24 := by
  unfold round24
  split
  · omega
  · rename_i hn
    have h224 : (0:ℕ) < 2 ^ 24 := Nat.pos_pow_of_pos 24 (by omega)
    obtain ⟨hlo, hhi⟩ := nbits_correct n (by omega) h64
    have hb : 25 ≤ nbits n := by
      by_contra hc
      have hc1 : nbits n ≤ 24 := by omega
      have hc2 : (2:ℕ) ^ nbits n ≤ 2 ^ 24 := Nat.pow_le_pow_right (by omega) hc1
      omega
    have hpow : 2 ^ (nbits n - 25) * 2 ^ 24 = 2 ^ (nbits n - 1) := by
      rw [← pow_add]; congr 1; omega
    exact rhe_le _ _ _ _ _ n
      (by rw [← pow_succ']; congr 1; omega)
      (Nat.div_add_mod' n _)
      (Nat.mod_lt n (Nat.pos_pow_of_pos _ (by omega)))
      (Nat.le_div_iff_mul_le h224 |>.mpr (by omega))

/-- `round24` never rounds down by more than half a unit in the last place:
`n ≤ round24 n + n / 2^24`. -/
theorem round24_ge (n : ℕ) (h64 : n < 2 ^ 64) : n ≤ round24 n + n / 2 ^ 24 := by
  unfold round24
  split
  · omega
  · rename_i hn
    have h224 : (0:ℕ) < 2 ^ 24 := Nat.pos_pow_of_pos 24 (by omega)
    obtain ⟨hlo, hhi⟩ := nbits_correct n (by omega) h64
    have hb : 25 ≤ nbits n := by
      by_contra hc
      have hc1 : nbits n ≤ 24 := by omega
      have hc2 : (2:ℕ) ^ nbits n ≤ 2 ^ 24 := Nat.pow_le_pow_right (by omega) hc1
      omega
    have hpow : 2 ^ (nbits n - 25) * 2 ^ 24 = 2 ^ (nbits n - 1) := by
      rw [← pow_add]; congr 1; omega
    exact rhe_ge _ _ _ _ _ n
      (by rw [← pow_succ']; congr 1; omega)
      (Nat.div_add_mod' n _)
      (Nat.mod_lt n (Nat.pos_pow_of_pos _ (by omega)))
      (Nat.le_div_iff_mul_le h224 |>.mpr (by omega))

/-- The certificate list `ratio_reach` contains the initial ratio and is closed
under both ratio steps. -/
theorem ratio_reach_closed :
    c_init_28 ∈ ratio_reach ∧
    ∀ r ∈ ratio_reach, ratio_up r ∈ ratio_reach ∧ ratio_down r ∈ ratio_reach := by
  decide

/-- Bounds and step sizes over the certificate list: every reachable scaled
ratio lies in `[53687080, 214748384]`, and every effective step moves it by
between 13421768 and 13421776 scaled units. -/
theorem ratio_reach_bounds :
    ∀ r ∈ ratio_reach,
      (53687080 ≤ r ∧ r ≤ 214748384) ∧
      (ratio_up r = r ∨
        (r + 13421768 ≤ ratio_up r ∧ ratio_up r ≤ r + 13421776)) ∧
      (ratio_down r = r ∨
        (ratio_down r + 13421768 ≤ r ∧ r ≤ ratio_down r + 13421776)) := by
  decide

/-- Each UI action either applies one of the two ratio steps to the pane ratio
or leaves it unchanged. -/
theorem exec_ratio_cases (s : SinkState) (a : UiAction) :
    (execute_ui_action s a).ratio28 = ratio_up s.ratio28 ∨
    (execute_ui_action s a).ratio28 = ratio_down s.ratio28 ∨
    (execute_ui_action s a).ratio28 = s.ratio28 := by
  cases a <;>
    simp only [execute_ui_action, ui_action_step, settings_mark_changed] <;>
    (try split) <;>
    first
      | exact Or.inl rfl
      | exact Or.inl trivial
      | exact Or.inr (Or.inl rfl)
      | exact Or.inr (Or.inl trivial)
      | exact Or.inr (Or.inr rfl)
      | exact Or.inr (Or.inr trivial)

/-- The pane ratio stays inside the reachable set along any action sequence. -/
theorem exec_ratio_reach (as : List UiAction) (s : SinkState)
    (h : s.ratio28 ∈ ratio_reach) :
    (as.foldl execute_ui_action s).ratio28 ∈ ratio_reach := by
  induction as generalizing s with
  | nil => exact h
  | cons a as ih =>
    refine ih (execute_ui_action s a) ?_
    rcases exec_ratio_cases s a with hc | hc | hc <;> rw [hc]
    · exact ((ratio_reach_closed.2 s.ratio28 h).1)
    · exact ((ratio_reach_closed.2 s.ratio28 h).2)
    · exact h

/-- Each UI action leaves the dB/div index in `{0, ..., 4}`. -/
theorem exec_idx_lt (s : SinkState) (a : UiAction) (h : s.d_db_per_div_idx < 5) :
    (execute_ui_action s a).d_db_per_div_idx < 5 := by
  cases a <;>
    simp only [execute_ui_action, ui_action_step, settings_mark_changed] <;>
    (try split) <;>
    first
      | exact h
      | (show s.d_db_per_div_idx + 1 < 5; omega)
      | (show s.d_db_per_div_idx - 1 < 5; omega)

/-- A `set_fft_size` call with the currently stored size is the identity. -/
theorem set_fft_size_self (t : SinkState) (size : ℤ) (h : size = t.d_fft_size) :
    set_fft_size t size = t := by
  unfold set_fft_size
  rw [if_pos h]

/-- Folding `settings_mark_changed` accumulates the bitwise OR of the marked
masks onto the initial dirty set. -/
theorem foldl_mark_changed (bs : List ℕ) : ∀ s : SinkState,
    (bs.foldl settings_mark_changed s).d_settings_changed =
      bs.foldl (· ||| ·) s.d_settings_changed := by
  induction bs with
  | nil => intro s; rfl
  | cons b bs ih =>
    intro s
    rw [List.foldl_cons, List.foldl_cons, ih]
    rfl

/-- A drain step with nothing queued does nothing. -/
theorem render_batches_zero_tot (fft_len : ℕ) (frozen : Bool) (fuel : ℕ) (f : Fifo) :
    render_batches fft_len frozen fuel 0 f = (f, []) := by
  cases fuel with
  | zero => rfl
  | succ fuel => rw [render_batches]; simp

/-- The sweep of the spec's two-channel example produces exactly the expected
partition. -/
theorem ex_partition_eq : channel_partition ex_channels = ex_partition := by
  norm_num [channel_partition, channel_points, ex_channels, clamp01, sort_pts,
    insert_pt, sweep_segs, ex_partition]

/-! ## Claim theorems -/

/-- Claim C3, counterexample: starting from the initial pane-height ratio
(0.35f), nine consecutive RATIO_UP actions drive the float32 ratio to
214748384/2^28 = 0.800000071..., strictly above 0.8, so the ratio does not
remain within [0.2, 0.8]. -/
theorem C3_counterexample :
    4/5 <
      (((List.replicate 9 UiAction.pane_split_up).foldl execute_ui_action
          init_state).ratio28 : ℚ) / 2 ^ 28 := by
  have h : ((List.replicate 9 UiAction.pane_split_up).foldl execute_ui_action
      init_state).ratio28 = 214748384 := by decide
  rw [h]
  norm_num

/-- Claim C3 (amended): after any sequence of UI actions from the initial
state, the float32 pane ratio stays within
[53687080/2^28, 214748384/2^28] = [0.2 - 1.2e-8, 0.8 + 7.2e-8] (instead of
exactly [0.2, 0.8]), and each effective RATIO step changes the scaled ratio by
between 13421768 and 13421776 units of 2^-28, i.e. by 0.05 up to an error
below 2e-8 (instead of exactly 0.05). -/
theorem C3_ratio_bounds_amended (as : List UiAction) (a : UiAction) :
    53687080 ≤ ratio_after as ∧ ratio_after as ≤ 214748384 ∧
    (ratio_after (as ++ [a]) = ratio_after as ∨
      (ratio_after as + 13421768 ≤ ratio_after (as ++ [a]) ∧
        ratio_after (as ++ [a]) ≤ ratio_after as + 13421776) ∨
      (ratio_after (as ++ [a]) + 13421768 ≤ ratio_after as ∧
        ratio_after as ≤ ratio_after (as ++ [a]) + 13421776)) := by
  have hreach : (as.foldl execute_ui_action init_state).ratio28 ∈ ratio_reach :=
    exec_ratio_reach as init_state ratio_reach_closed.1
  obtain ⟨⟨h1, h2⟩, hup, hdown⟩ := ratio_reach_bounds _ hreach
  refine ⟨h1, h2, ?_⟩
  have happ : ratio_after (as ++ [a]) =
      (execute_ui_action (as.foldl execute_ui_action init_state) a).ratio28 := by
    simp [ratio_after, List.foldl_append]
  rcases exec_ratio_cases (as.foldl execute_ui_action init_state) a with hc | hc | hc <;>
    rw [show ratio_after (as ++ [a]) =
        (execute_ui_action (as.foldl execute_ui_action init_state) a).ratio28 from happ, hc]
  · rcases hup with h | h
    · exact Or.inl h
    · exact Or.inr (Or.inl h)
  · rcases hdown with h | h
    · exact Or.inl h
    · exact Or.inr (Or.inr h)
  · exact Or.inl rfl

/-- Claim C10: along every UI-action sequence from the initial state the
dB/div index stays below 5 = `k_db_per_div.length`, so every
`k_db_per_div[d_db_per_div_idx]` read (REF_UP / REF_DOWN and the power-range
apply) indexes the 5-element table in bounds. -/
theorem C10_idx_in_bounds (as : List UiAction) :
    (as.foldl execute_ui_action init_state).d_db_per_div_idx <
      k_db_per_div.length := by
  have hgen : ∀ (bs : List UiAction) (s : SinkState), s.d_db_per_div_idx < 5 →
      (bs.foldl execute_ui_action s).d_db_per_div_idx < 5 := by
    intro bs
    induction bs with
    | nil => intro s h; exact h
    | cons b bs ih => intro s h; exact ih _ (exec_idx_lt s b h)
  exact hgen as init_state (by decide)

/-- Claim C9, counterexample: the initial state has zoom disabled and an empty
dirty set, yet ZOOM_WIDTH_UP changes the state — the interpreter marks the
power-range and render-options categories dirty unconditionally, so the
pending-settings dirty set after the action differs from before. -/
theorem C9_counterexample :
    init_state.d_zoom_enabled = false ∧
    execute_ui_action init_state UiAction.zoom_width_up ≠ init_state := by
  refine ⟨rfl, fun h => ?_⟩
  have h2 := congrArg SinkState.d_settings_changed h
  have h3 : (execute_ui_action init_state UiAction.zoom_width_up).d_settings_changed =
      0 ||| (2 ||| 32) := rfl
  rw [h3] at h2
  exact absurd h2 (by decide)

/-- Claim C9 (amended): with zoom disabled, ZOOM_WIDTH_UP leaves every UiState
field unchanged but still ORs the power-range and render-options bits into the
pending-settings dirty set. -/
theorem C9_noop_amended (s : SinkState) (h : s.d_zoom_enabled = false) :
    execute_ui_action s UiAction.zoom_width_up =
      { s with d_settings_changed :=
          s.d_settings_changed ||| (SETTING_POWER_RANGE ||| SETTING_RENDER_OPTIONS) } := by
  simp [execute_ui_action, ui_action_step, settings_mark_changed, h]

/-- Witness for C9: the amended statement evaluated at the initial state. -/
theorem C9_witness :
    init_state.d_zoom_enabled = false ∧
    execute_ui_action init_state UiAction.zoom_width_up =
      { init_state with d_settings_changed :=
          init_state.d_settings_changed |||
            (SETTING_POWER_RANGE ||| SETTING_RENDER_OPTIONS) } :=
  ⟨rfl, C9_noop_amended init_state rfl⟩

/-- Claim C7: `set_fft_size` with the active size marks nothing dirty; with a
new supported size it stores the size and marks the fft-size category dirty,
and an immediately repeated identical call is the identity (so the category is
marked exactly once); with an unsupported size both the stored size and the
dirty set stay unchanged. -/
theorem C7_fft_size_dedup (s : SinkState) (size bad : ℤ)
    (hne : size ≠ s.d_fft_size)
    (hsup : size = 512 ∨ size = 1024 ∨ size = 2048 ∨ size = 4096 ∨
      size = 8192 ∨ size = 16384 ∨ size = 32768)
    (hbad : ¬(bad = 512 ∨ bad = 1024 ∨ bad = 2048 ∨ bad = 4096 ∨
      bad = 8192 ∨ bad = 16384 ∨ bad = 32768)) :
    set_fft_size s s.d_fft_size = s ∧
    (set_fft_size s size).d_fft_size = size ∧
    (set_fft_size s size).d_settings_changed =
      s.d_settings_changed ||| SETTING_FFT_SIZE ∧
    set_fft_size (set_fft_size s size) size = set_fft_size s size ∧
    set_fft_size s bad = s := by
  have hset : set_fft_size s size =
      settings_mark_changed { s with d_fft_size := size } SETTING_FFT_SIZE := by
    unfold set_fft_size
    rw [if_neg hne, if_pos hsup]
  refine ⟨set_fft_size_self s _ rfl, ?_, ?_, ?_, ?_⟩
  · rw [hset]; rfl
  · rw [hset]; rfl
  · exact set_fft_size_self _ _ (by rw [hset]; rfl)
  · by_cases hb : bad = s.d_fft_size
    · exact set_fft_size_self s bad hb
    · unfold set_fft_size
      rw [if_neg hb, if_neg hbad]

/-- Witness for C7: the de-duplication behaviour at the initial state
(active size 1024), the supported new size 4096 and the unsupported size
1000. -/
theorem C7_witness :
    set_fft_size init_state init_state.d_fft_size = init_state ∧
    (set_fft_size init_state 4096).d_fft_size = 4096 ∧
    (set_fft_size init_state 4096).d_settings_changed =
      init_state.d_settings_changed ||| SETTING_FFT_SIZE ∧
    set_fft_size (set_fft_size init_state 4096) 4096 =
      set_fft_size init_state 4096 ∧
    set_fft_size init_state 1000 = init_state :=
  C7_fft_size_dedup init_state 4096 1000 (by decide) (by decide) (by decide)

/-- Claim C8: starting from an empty dirty set, after any sequence of
`settings_mark_changed` calls one `settings_get_and_reset_changed` returns
exactly the bitwise union of the marked masks, and an immediately following
drain (with no intervening mark) returns the empty set. -/
theorem C8_drain_union (s : SinkState) (bs : List ℕ)
    (h : s.d_settings_changed = 0) :
    (settings_get_and_reset_changed (bs.foldl settings_mark_changed s)).1 =
      bs.foldl (· ||| ·) 0 ∧
    (settings_get_and_reset_changed
      (settings_get_and_reset_changed (bs.foldl settings_mark_changed s)).2).1 = 0 := by
  constructor
  · show (bs.foldl settings_mark_changed s).d_settings_changed = _
    rw [foldl_mark_changed, h]
  · rfl

/-- Witness for C8: three marks (dimensions, fft-size, dimensions again) on the
freshly constructed sink. -/
theorem C8_witness :
    (settings_get_and_reset_changed
      ([SETTING_DIMENSIONS, SETTING_FFT_SIZE, SETTING_DIMENSIONS].foldl
        settings_mark_changed init_state)).1 =
      [SETTING_DIMENSIONS, SETTING_FFT_SIZE, SETTING_DIMENSIONS].foldl (· ||| ·) 0 ∧
    (settings_get_and_reset_changed
      (settings_get_and_reset_changed
        ([SETTING_DIMENSIONS, SETTING_FFT_SIZE, SETTING_DIMENSIONS].foldl
          settings_mark_changed init_state)).2).1 = 0 :=
  C8_drain_union init_state [SETTING_DIMENSIONS, SETTING_FFT_SIZE, SETTING_DIMENSIONS] rfl

/-- Claim C1, counterexample: on a pane with live rendering enabled the grid
loop draws 11 horizontal power gridlines (`for (i=0; i<11; i++)`), not 10. -/
theorem C1_counterexample :
    (power_grid_lines opts_live 0 1 0 10).length ≠ 10 := by
  decide

/-- Claim C1 (amended): for every pane draw with live, max-hold or histogram
rendering enabled, the compositor draws exactly 11 horizontal power gridlines
(one per boundary of the 10 divisions), and when power labels are enabled
gridline i (0 ≤ i ≤ 10) is labeled `reference - (10-i)*dB_per_div`. -/
theorem C1_grid_amended (opts : RenderOptions) (y0 ydiv : ℚ) (db_ref db_per_div : ℤ)
    (h : (opts.live || opts.max_hold || opts.histo) = true) :
    (power_grid_lines opts y0 ydiv db_ref db_per_div).length = 11 ∧
    ∀ i : ℕ, i < 11 →
      ((power_grid_lines opts y0 ydiv db_ref db_per_div).getD i (GridLine.mk 0 none)).label =
        if opts.label_pwr then some (db_ref - (10 - (i : ℤ)) * db_per_div) else none := by
  unfold power_grid_lines
  rw [if_pos h]
  constructor
  · simp
  · intro i hi
    rw [List.getD_eq_getElem?_getD]
    simp [List.getElem?_map, List.getElem?_range, hi]

/-- Witness for C1: the amended statement at a live pane with power labels,
evaluated at gridline 0. -/
theorem C1_witness :
    (power_grid_lines opts_live 0 1 0 10).length = 11 ∧
    ((power_grid_lines opts_live 0 1 0 10).getD 0 (GridLine.mk 0 none)).label =
      if opts_live.label_pwr then some ((0 : ℤ) - (10 - ((0 : ℕ) : ℤ)) * 10) else none :=
  ⟨(C1_grid_amended opts_live 0 1 0 10 rfl).1,
   (C1_grid_amended opts_live 0 1 0 10 rfl).2 0 (by omega)⟩

/-- Claim C2, counterexample: at total width W = 180 with zoom enabled the
layout recompute sets the main-pane width to `(int)(180 * 0.65f) = 116`, while
`floor(0.65 * 180) = 117`; the claimed formula does not hold for every W. -/
theorem C2_counterexample :
    main_pane_width true 180 = 116 ∧ ⌊(65 / 100 : ℚ) * 180⌋ = 117 := by
  constructor
  · decide
  · norm_num

/-- Claim C2 (amended): for every total width `W ≤ 2^20`, when zoom is enabled
the main-pane width is `floor(W * 0.65f)` computed in float32, which equals
`floor(0.65*W)` or `floor(0.65*W) - 1` (off by one for some widths, e.g. 180);
the zoom-pane width satisfies `zoom + main = W + 10` (the remaining width plus
the 10 px overlap); when zoom is disabled the main pane width equals W. -/
theorem C2_layout_amended (w : ℕ) (hw : w ≤ 2 ^ 20) :
    main_pane_width false w = w ∧
    (main_pane_width true w = 13 * w / 20 ∨
      main_pane_width true w + 1 = 13 * w / 20) ∧
    zoom_pane_width w + main_pane_width true w = w + 10 := by
  have hmw : main_pane_width true w = round24 (w * 10905190) / 2 ^ 24 := by
    simp [main_pane_width, zoom_main_width, c065_24]
  have h64 : w * 10905190 < 2 ^ 64 := by
    calc w * 10905190 ≤ 2 ^ 20 * 10905190 := Nat.mul_le_mul_right _ hw
    _ < 2 ^ 64 := by norm_num
  have hle := round24_le (w * 10905190) h64
  have hge := round24_ge (w * 10905190) h64
  have hmain_le : main_pane_width true w ≤ w := by
    rw [hmw]
    omega
  refine ⟨rfl, ?_, ?_⟩
  · rw [hmw]
    omega
  · have hzw : zoom_pane_width w = w - main_pane_width true w + 10 := by
      simp [zoom_pane_width, zoom_main_width, main_pane_width, c065_24]
    omega

/-- Witness for C2: the amended statement at total width 100. -/
theorem C2_witness :
    main_pane_width false 100 = 100 ∧
    (main_pane_width true 100 = 13 * 100 / 20 ∨
      main_pane_width true 100 + 1 = 13 * 100 / 20) ∧
    zoom_pane_width 100 + main_pane_width true 100 = 100 + 10 :=
  C2_layout_amended 100 (by norm_num)

/-- Claim C4, counterexample: in the spec's own two-channel example the
sub-interval `[0, 0.1)` of depth 0 is shaded with opacity 1/2 while the
sub-interval `[0.1, 0.2)` of depth 1 is shaded with opacity 0, so the shading
opacity is not non-decreasing in the coverage depth of a sub-interval. -/
theorem C4_counterexample :
    channel_partition ex_channels = ex_partition ∧
    (ex_partition.getD 0 (CSeg.mk 0 0 0)).cov + 1 <
      (ex_partition.getD 1 (CSeg.mk 0 0 0)).cov + 1 ∧
    seg_alpha ((ex_partition.getD 1 (CSeg.mk 0 0 0)).cov) <
      seg_alpha ((ex_partition.getD 0 (CSeg.mk 0 0 0)).cov) := by
  refine ⟨ex_partition_eq, ?_, ?_⟩
  · norm_num [ex_partition]
  · norm_num [ex_partition, seg_alpha]

/-- Claim C4 (amended): the sweep partitions `[0,1]` for the example channels
`[0.1,0.3]` and `[0.2,0.4]` into sub-intervals of coverage depth (`cov + 1`)
1 on `[0.1,0.2)` and `[0.3,0.4)`, 2 on `[0.2,0.3)` and 0 elsewhere; among
sub-intervals inside at least one channel (counter `l ≥ 0`, depth ≥ 1) the
shading opacity `0.2 - 0.2/(1+l)` is non-decreasing in depth, and every
sub-interval outside all channels gets strictly stronger opacity (1/2) than
any in-channel sub-interval. -/
theorem C4_overlay_amended :
    channel_partition ex_channels = ex_partition ∧
    (∀ l1 l2 : ℤ, 0 ≤ l1 → l1 ≤ l2 → seg_alpha l1 ≤ seg_alpha l2) ∧
    (∀ l : ℤ, 0 ≤ l → seg_alpha l < seg_alpha (-1)) := by
  refine ⟨ex_partition_eq, ?_, ?_⟩
  · intro l1 l2 h1 h12
    unfold seg_alpha
    rw [if_neg (by omega), if_neg (by omega)]
    have hp1 : (0:ℚ) < ((1 + l1 : ℤ) : ℚ) := by
      exact_mod_cast (by omega : (0:ℤ) < 1 + l1)
    have hp2 : ((1 + l1 : ℤ) : ℚ) ≤ ((1 + l2 : ℤ) : ℚ) := by
      exact_mod_cast (by omega : (1 + l1 : ℤ) ≤ 1 + l2)
    have hd := div_le_div_of_nonneg_left (by norm_num : (0:ℚ) ≤ 1/5) hp1 hp2
    linarith
  · intro l hl
    unfold seg_alpha
    rw [if_neg (by omega), if_pos (by norm_num : (-1:ℤ) < 0)]
    have hp : (0:ℚ) < ((1 + l : ℤ) : ℚ) := by
      exact_mod_cast (by omega : (0:ℤ) < 1 + l)
    have hd : (0:ℚ) < (1/5) / ((1 + l : ℤ) : ℚ) := by positivity
    linarith

/-- Witness for C4: the amended statement evaluated at depths 1 ≤ 2 and at a
depth-2 versus outside comparison. -/
theorem C4_witness :
    channel_partition ex_channels = ex_partition ∧
    seg_alpha 0 ≤ seg_alpha 1 ∧ seg_alpha 1 < seg_alpha (-1) :=
  ⟨C4_overlay_amended.1,
   C4_overlay_amended.2.1 0 1 (by norm_num) (by norm_num),
   C4_overlay_amended.2.2 1 (by norm_num)⟩

/-- Claim C5: when the FIFO holds exactly one batch-aligned contiguous chunk of
16*1024 samples at FFT size 1024, one render iteration issues exactly one
process call of that length and leaves `used() = 0`; when frozen the same
iteration issues no process call but still discards the chunk. -/
theorem C5_render_drain (f : Fifo) (h1 : f.used = 16 * 1024)
    (h2 : 16 * 1024 ≤ f.cap - f.rpos) :
    (render_drain 1024 false f).2 = [16 * 1024] ∧
    (render_drain 1024 false f).1.used = 0 ∧
    (render_drain 1024 true f).2 = [] ∧
    (render_drain 1024 true f).1.used = 0 := by
  have hread : read_max_size f = 16384 := by
    unfold read_max_size
    omega
  have key : ∀ fr : Bool, render_drain 1024 fr f =
      (read_discard f 16384, if fr = true then [] else [16384]) := by
    intro fr
    show render_batches 1024 fr (7 + 1) f.used f = _
    rw [render_batches]
    rw [h1]
    norm_num [hread, batch_mult, batch_max]
    rw [render_batches_zero_tot]
    exact ⟨rfl, rfl⟩
  refine ⟨?_, ?_, ?_, ?_⟩ <;> rw [key] <;> simp [read_discard, h1]

/-- Witness for C5: a 2 Msample FIFO with the chunk at the start of the
ring. -/
theorem C5_witness :
    (render_drain 1024 false (Fifo.mk 2097152 0 16384)).2 = [16 * 1024] ∧
    (render_drain 1024 false (Fifo.mk 2097152 0 16384)).1.used = 0 ∧
    (render_drain 1024 true (Fifo.mk 2097152 0 16384)).2 = [] ∧
    (render_drain 1024 true (Fifo.mk 2097152 0 16384)).1.used = 0 :=
  C5_render_drain (Fifo.mk 2097152 0 16384) (by norm_num) (by norm_num)

/-- Claim C6: for every pane with live or max-hold tracing enabled, the drawn
spectrum bin range is `[ceil(N*(c - s/2)), floor(N*(c + s/2))]` intersected
with `[1, N-1]` (lower endpoint raised to 1, upper endpoint lowered to N-1),
and the lower endpoint is at least 1, so bin 0 is never included. -/
theorem C6_spectrum_range (opts : RenderOptions) (fft_len : ℕ) (c s : ℚ)
    (h : (opts.live || opts.max_hold) = true) :
    draw_spectrum_range opts fft_len c s =
      some (max 1 ⌈(fft_len : ℚ) * (c - s / 2)⌉,
        min ⌊(fft_len : ℚ) * (c + s / 2)⌋ ((fft_len : ℤ) - 1)) ∧
    1 ≤ (spectrum_idx fft_len c s).1 := by
  constructor
  · unfold draw_spectrum_range
    rw [if_pos h]
    unfold spectrum_idx
    refine congrArg some (Prod.ext ?_ ?_)
    · dsimp only
      split <;> omega
    · dsimp only
      split <;> omega
  · unfold spectrum_idx
    dsimp only
    split <;> omega

/-- Witness for C6: a live pane over the full band at FFT length 1024. -/
theorem C6_witness :
    draw_spectrum_range opts_live 1024 (1/2) 1 =
      some (max 1 ⌈(1024 : ℚ) * (1/2 - 1 / 2)⌉,
        min ⌊(1024 : ℚ) * (1/2 + 1 / 2)⌋ ((1024 : ℤ) - 1)) ∧
    1 ≤ (spectrum_idx 1024 (1/2) 1).1 :=
  C6_spectrum_range opts_live 1024 (1/2) 1 rfl

end Fosphor
